import Mathlib

/-!
Verification of the tabular-preprocessing core of the
Hybrid-Unsupervised-Supervised-Learning-System-for-Alzheimer repository:
the feature-correlation categorizer (`analyze_feature_correlations.py`)
and the fit/transform pipeline steps (`tranformerColumnsHighNA.py`,
`transformerDropLowVarNum.py`, `transformerImputeMissingValues.py`,
`transformerDataTypesConversion.py`, `transformerDropColumns.py`).

A dataframe is modelled as an ordered list of named, dtype-tagged columns
whose cells are exact rationals, strings, booleans, or the missing marker
(`pandas` NaN/None).  Real-valued arithmetic of the source is carried out
over `ℚ`; fallible Python code (raising constructors/methods, the `/`
operator on a zero divisor) is modelled with `Except`.
-/

namespace AlzPrep

/-- Python exception kinds raised by the embedded code. -/
inductive Err where
  | typeError
  | valueError
  | runtimeError
  | zeroDivisionError
  deriving DecidableEq, Repr

/-- Column dtypes distinguished by the source (`select_dtypes` filters on
`np.number`, `"object"`, `np.float64/np.float32`, `"bool"`, and the
`"category"` target dtype of `astype`). -/
inductive Dtype where
  | intD
  | floatD
  | objD
  | boolD
  | catD
  deriving DecidableEq, Repr

/-- `np.number` selects integer and floating dtypes (not bool). -/
def Dtype.isNumeric : Dtype → Bool
  | .intD => true
  | .floatD => true
  | _ => false

/-- A single table cell: the missing marker (NaN/None), a numeric value,
a string, or a boolean. -/
inductive Cell where
  | na
  | num (q : ℚ)
  | str (s : String)
  | boolV (b : Bool)
  deriving DecidableEq, Repr

/-- A named column with a declared dtype and its cells. -/
structure Col where
  name : String
  dtype : Dtype
  cells : List Cell
  deriving DecidableEq, Repr

/-- A dataframe: an ordered list of columns (invariant: equal lengths). -/
abbrev Table := List Col

/-- `len(X)`: the row count, read off the first column (all columns of a
well-formed dataframe have equal length). -/
def Table.nrows (X : Table) : Nat :=
  match X with
  | [] => 0
  | c :: _ => c.cells.length

/-- Rectangularity invariant of a dataframe (spec section 3). -/
def Rect (X : Table) : Prop :=
  ∀ c ∈ X, c.cells.length = X.nrows

/-- `X.empty` in pandas: no columns or no rows. -/
def Table.isEmptyTab (X : Table) : Bool :=
  X.isEmpty || X.nrows == 0

/-- Names of the table's columns, in order. -/
def Table.colNames (X : Table) : List String :=
  X.map (·.name)

/-- `X[col].isnull().sum()` for one column: number of missing cells. -/
def Col.naCount (c : Col) : Nat :=
  c.cells.countP (· == Cell.na)

/-- `X[col].isnull().any()`. -/
def Col.hasNa (c : Col) : Bool :=
  c.cells.any (· == Cell.na)

/-- View a column's cells as optional rationals (missing ↦ `none`);
only numeric-dtype columns are read this way by the source. -/
def Col.numVals (c : Col) : List (Option ℚ) :=
  c.cells.map (fun x => match x with | .num q => some q | _ => none)

/-- `dropna()` on a numeric series. -/
def dropNa (l : List (Option ℚ)) : List ℚ :=
  l.filterMap id

/-- `nunique(dropna=True)` on a numeric series. -/
def nuniqueV (l : List (Option ℚ)) : Nat :=
  (dropNa l).dedup.length

/-- Minimum of a value list (0 on an empty list; the source only takes
minima of nonempty lists). -/
def listMin : List ℚ → ℚ
  | [] => 0
  | x :: xs => xs.foldl min x

/-- Maximum of a value list (0 on an empty list). -/
def listMax : List ℚ → ℚ
  | [] => 0
  | x :: xs => xs.foldl max x

/-- Sum of a value list. -/
def qsum (l : List ℚ) : ℚ :=
  l.sum

/-- `Series.mean()` skipping missing values: NaN (modelled `none`) on an
all-missing series. -/
def mean? (l : List ℚ) : Option ℚ :=
  if l.isEmpty then none else some (qsum l / l.length)

/-- `Series.median()` skipping missing values: sort the present values and
take the middle element (average of the two middles for even counts). -/
def median? (l : List ℚ) : Option ℚ :=
  let s := List.insertionSort (· ≤ ·) l
  let n := s.length
  if n = 0 then none
  else if n % 2 = 1 then some (s.getD (n / 2) 0)
  else some ((s.getD (n / 2 - 1) 0 + s.getD (n / 2) 0) / 2)

/-- `Series.var(ddof=0)` skipping missing values: population variance of
the present values, NaN (modelled `none`) when no value is present. -/
def popVar? (l : List (Option ℚ)) : Option ℚ :=
  (mean? (dropNa l)).map (fun m =>
    qsum ((dropNa l).map (fun x => (x - m) * (x - m))) / (dropNa l).length)

/-- Python's `/`: raises `ZeroDivisionError` on a zero divisor. -/
def pyDiv (a b : ℚ) : Except Err ℚ :=
  if b = 0 then .error Err.zeroDivisionError else .ok (a / b)

/-- First value of an association list under a key, `None` if absent
(`col in dict` plus `dict[col]`). -/
def alookup {α : Type} (l : List (String × α)) (k : String) : Option α :=
  (l.find? (·.1 == k)).map (·.2)

/-! ## Correlation categorizer — `analyze_feature_correlations.py`

The function first computes `df.corr(numeric_only=True)` (an external
dataframe-library call) and then categorizes the strictly-lower triangle
of the resulting square matrix.  The embedding takes that correlation
matrix as input: a list of column labels plus an entry function, where
`none` stands for a non-numeric stray cell (skipped with a diagnostic by
lines 103–107 of the source). -/

/-- A named band of the threshold table: `(level, (min_corr, max_corr))`.
The Python argument is a `dict`; insertion order is its iteration order,
so an ordered association list is the faithful model. -/
abbrev ThTable := List (String × ℚ × ℚ)

/-- A categorized-correlation report: band name ↦ list of
`(feature1, feature2, correlation)` triples, in insertion order. -/
abbrev Report := List (String × List (String × String × ℚ))

/-- The correlation matrix handed to the categorization loop. -/
structure CorrMatrix where
  cols : List String
  entry : Nat → Nat → Option ℚ

/-- Default directional ten-band threshold table installed by
lines 60–71 of `analyze_feature_correlations.py` when `thresholds is None`
(bounds `±1.000001` extend an epsilon past `±1.0`, `±0.999999` an epsilon
short of it). -/
def defaultThresholds : ThTable :=
  [ ("very_low_positive", (1/10, 3/10))
  , ("very_low_negative", (-(3/10), -(1/10)))
  , ("low_positive", (3/10, 1/2))
  , ("low_negative", (-(1/2), -(3/10)))
  , ("medium_positive", (1/2, 7/10))
  , ("medium_negative", (-(7/10), -(1/2)))
  , ("high_positive", (7/10, 1000001/1000000))
  , ("high_negative", (-(1000001/1000000), -(7/10)))
  , ("perfect_positive", (999999/1000000, 1000001/1000000))
  , ("perfect_negative", (-(1000001/1000000), -(999999/1000000))) ]

/-- `is_directional_range = min_corr < 0 or max_corr <= 0` (line 110). -/
def isDirectionalRange (mn mx : ℚ) : Bool :=
  decide (mn < 0) || decide (mx ≤ 0)

/-- One band's membership test (lines 110–118): signed value against a
directional band, absolute value against a magnitude band. -/
def bandMatches (mn mx v : ℚ) : Bool :=
  if isDirectionalRange mn mx then decide (mn ≤ v ∧ v < mx)
  else decide (mn ≤ |v| ∧ |v| < mx)

/-- The inner `for level, (min_corr, max_corr) in thresholds.items()` loop
with its `break`: the first band matching `v`, if any. -/
def firstBand (T : ThTable) (v : ℚ) : Option String :=
  (T.find? (fun b => bandMatches b.2.1 b.2.2 v)).map (·.1)

/-- `categorized_correlations[level].append(...)`. -/
def appendAt (r : Report) (lvl : String) (e : String × String × ℚ) : Report :=
  r.map (fun p => if p.1 = lvl then (p.1, p.2 ++ [e]) else p)

/-- Process one `(i, j)` pair of the scan: first-match-wins banding. -/
def categorizePair (T : ThTable) (r : Report) (c1 c2 : String) (v : ℚ) :
    Report :=
  match firstBand T v with
  | some lvl => appendAt r lvl (c1, c2, v)
  | none => r

/-- The strictly-lower-triangle traversal order of lines 91–92:
`for i in range(n_cols): for j in range(i)`. -/
def lowerPairs (n : Nat) : List (Nat × Nat) :=
  (List.range n).flatMap (fun i => (List.range i).map (fun j => (i, j)))

/-- `analyze_feature_correlations` (lines 44–123) after the correlation
matrix has been computed.  `thresholds = none` models a caller passing
Python `None` (line 58 then installs `defaultThresholds`); a caller that
omits the argument gets the declared default value `{}`, i.e. `some []`
(see `pythonDefaultThresholdsArg`). -/
def analyze_feature_correlations (M : CorrMatrix)
    (thresholds : Option ThTable) : Report :=
  let th := match thresholds with
    | none => defaultThresholds
    | some t => t
  let init : Report := th.map (fun b => (b.1, []))
  (lowerPairs M.cols.length).foldl
    (fun r ij =>
      match M.entry ij.1 ij.2 with
      | some v =>
          categorizePair th r (M.cols.getD ij.1 "") (M.cols.getD ij.2 "") v
      | none => r)  -- non-numeric stray cell: diagnostic only, skipped
    init

/-- The declared default of the `thresholds` parameter in the source
signature (line 9) is the empty dict `{}` — not `None`. -/
def pythonDefaultThresholdsArg : Option ThTable := some []

/-- Calling the categorizer with the `thresholds` parameter unset. -/
def analyzeUnset (M : CorrMatrix) : Report :=
  analyze_feature_correlations M pythonDefaultThresholdsArg

/-- Report lookup: the list recorded under a band name. -/
def rlookup (r : Report) (L : String) : Option (List (String × String × ℚ)) :=
  (r.find? (·.1 == L)).map (·.2)

end AlzPrep

namespace AlzPrep

/-! ### Report-construction lemmas -/

theorem rlookup_appendAt (r : Report) (L L' : String)
    (e : String × String × ℚ) :
    rlookup (appendAt r L e) L' =
      if L' = L then (rlookup r L').map (· ++ [e]) else rlookup r L' := by
  unfold rlookup appendAt
  rw [List.find?_map]
  have hpred : ((fun x : String × List (String × String × ℚ) => x.1 == L') ∘
      fun p => if p.1 = L then (p.1, p.2 ++ [e]) else p) =
      (fun x => x.1 == L') := by
    funext p
    by_cases h : p.1 = L <;> simp [h]
  rw [hpred]
  cases hf : r.find? (fun x => x.1 == L') with
  | none =>
    by_cases hL : L' = L <;> simp [hL]
  | some p =>
    have hp : p.1 = L' := by
      have := List.find?_some hf
      simpa using this
    by_cases hL : L' = L
    · simp [hL, hp.trans hL]
    · have : ¬ p.1 = L := fun h => hL (hp.symm.trans h)
      simp [hL, this]

theorem rlookup_categorizePair (T : ThTable) (r : Report)
    (c1 c2 : String) (v : ℚ) (L : String) :
    rlookup (categorizePair T r c1 c2 v) L =
      if firstBand T v = some L then (rlookup r L).map (· ++ [(c1, c2, v)])
      else rlookup r L := by
  unfold categorizePair
  cases hfb : firstBand T v with
  | none => simp [hfb]
  | some lvl =>
    rw [rlookup_appendAt]
    by_cases hL : L = lvl
    · simp [hL, hfb]
    · have hne : ¬ firstBand T v = some L := by
        rw [hfb]; intro h; exact hL (Option.some.inj h).symm
      have hne' : ¬ lvl = L := fun h => hL h.symm
      simp [hne, hL, hne']

/-- The triple that the scan records in band `L` for pair `(i, j)`:
present exactly when the entry is numeric and `L` is the first band that
matches its value. -/
def pairContrib (M : CorrMatrix) (T : ThTable) (L : String)
    (ij : Nat × Nat) : Option (String × String × ℚ) :=
  (M.entry ij.1 ij.2).bind (fun v =>
    if firstBand T v = some L then
      some (M.cols.getD ij.1 "", M.cols.getD ij.2 "", v)
    else none)

theorem rlookup_foldPairs (M : CorrMatrix) (T : ThTable)
    (ps : List (Nat × Nat)) (r : Report) (L : String) :
    rlookup (ps.foldl
      (fun r ij =>
        match M.entry ij.1 ij.2 with
        | some v =>
            categorizePair T r (M.cols.getD ij.1 "") (M.cols.getD ij.2 "") v
        | none => r) r) L
    = (rlookup r L).map (· ++ ps.filterMap (pairContrib M T L)) := by
  induction ps generalizing r with
  | nil => cases h : rlookup r L <;> simp [h]
  | cons p ps ih =>
    rw [List.foldl_cons, ih]
    cases he : M.entry p.1 p.2 with
    | none => simp [pairContrib, he]
    | some v =>
      simp only [he]
      rw [rlookup_categorizePair]
      by_cases hfb : firstBand T v = some L
      · simp only [hfb, if_pos rfl, List.filterMap_cons, pairContrib, he,
          if_pos hfb]
        cases h : rlookup r L <;> simp [h, hfb]
      · simp [pairContrib, he, hfb]

theorem rlookup_init (T : ThTable) (L : String) (hL : L ∈ T.map (·.1)) :
    rlookup (T.map (fun b => (b.1, ([] : List (String × String × ℚ))))) L
      = some [] := by
  induction T with
  | nil => simp at hL
  | cons b T ih =>
    rcases List.mem_cons.1 hL with h | h
    · simp only [List.map_cons] at h ⊢
      simp [rlookup, List.find?, h.symm]
    · by_cases hb : b.1 = L
      · simp [rlookup, List.find?, hb]
      · have : ¬ (b.1 == L) = true := by simpa using hb
        simp only [List.map_cons, rlookup, List.find?, this, Bool.false_eq_true,
          if_false]
        exact ih h

theorem mem_lowerPairs (n i j : Nat) :
    (i, j) ∈ lowerPairs n ↔ j < i ∧ i < n := by
  simp only [lowerPairs, List.mem_flatMap, List.mem_map, List.mem_range]
  constructor
  · rintro ⟨a, ha, b, hb, hab⟩
    cases hab
    exact ⟨hb, ha⟩
  · rintro ⟨hj, hi⟩
    exact ⟨i, hi, j, hj, rfl⟩

end AlzPrep

namespace AlzPrep

/-! ## Claim theorems for the correlation categorizer -/

/-- C1: the claim says that calling `analyze_feature_correlations` with
`thresholds` unset uses the fixed directional ten-band default table, so
the report has exactly those ten band keys.  In the code the parameter's
declared default is the empty dict `{}` and the default table is only
installed when the argument `is None`, so an unset call produces a report
with no band keys at all — even though `defaultThresholds` is indeed the
ten-band directional table the claim describes. -/
theorem unset_thresholds_report_has_no_bands :
    (∀ M : CorrMatrix, (analyzeUnset M).map (·.1) = []) ∧
    defaultThresholds.map (·.1) =
      ["very_low_positive", "very_low_negative", "low_positive",
       "low_negative", "medium_positive", "medium_negative",
       "high_positive", "high_negative", "perfect_positive",
       "perfect_negative"] := by
  constructor
  · intro M
    have hempty : analyzeUnset M = [] := by
      unfold analyzeUnset analyze_feature_correlations pythonDefaultThresholdsArg
      simp only [List.map_nil]
      generalize lowerPairs M.cols.length = ps
      induction ps with
      | nil => rfl
      | cons p ps ih =>
        rw [List.foldl_cons]
        have hstep : (match M.entry p.1 p.2 with
            | some v => categorizePair [] ([] : Report)
                (M.cols.getD p.1 "") (M.cols.getD p.2 "") v
            | none => ([] : Report)) = ([] : Report) := by
          cases he : M.entry p.1 p.2 with
          | none => rfl
          | some v => simp [categorizePair, firstBand]
        rw [hstep]
        exact ih
    rw [hempty]
    rfl
  · rfl

/-- C4: in the categorizer's report, band `L`'s list is exactly the
traversal-ordered list of triples of scanned pairs whose value's first
matching band (directional bands tested on the signed value, magnitude
bands on the absolute value, in threshold-table order) is `L`; moreover,
with distinct feature labels, a scanned pair's triple is a member of band
`L`'s list iff `L` is the first matching band — so each pair appears in at
most one band and a pair matching no band appears nowhere. -/
theorem categorizer_first_match_wins (M : CorrMatrix) (T : ThTable)
    (hcols : M.cols.Nodup) :
    (∀ L ∈ T.map (·.1),
      rlookup (analyze_feature_correlations M (some T)) L
        = some ((lowerPairs M.cols.length).filterMap (pairContrib M T L))) ∧
    (∀ i j v, (i, j) ∈ lowerPairs M.cols.length → M.entry i j = some v →
      ∀ L ∈ T.map (·.1), ∀ lst,
        rlookup (analyze_feature_correlations M (some T)) L = some lst →
        ((M.cols.getD i "", M.cols.getD j "", v) ∈ lst ↔
          firstBand T v = some L)) := by
  have hchar : ∀ L ∈ T.map (·.1),
      rlookup (analyze_feature_correlations M (some T)) L
        = some ((lowerPairs M.cols.length).filterMap (pairContrib M T L)) := by
    intro L hL
    unfold analyze_feature_correlations
    simp only
    rw [rlookup_foldPairs, rlookup_init T L hL]
    rfl
  refine ⟨hchar, ?_⟩
  intro i j v hij hv L hL lst hlst
  rw [hchar L hL] at hlst
  have hlst' : lst = (lowerPairs M.cols.length).filterMap (pairContrib M T L) :=
    (Option.some.inj hlst).symm
  subst hlst'
  constructor
  · intro hmem
    rcases List.mem_filterMap.1 hmem with ⟨⟨i', j'⟩, hij', hc⟩
    rcases he : M.entry i' j' with _ | v'
    · simp [pairContrib, he] at hc
    · by_cases hfb : firstBand T v' = some L
      · simp only [pairContrib, he, Option.some_bind, if_pos hfb] at hc
        have htrip := Option.some.inj hc
        have hj' : j' < i' ∧ i' < M.cols.length := (mem_lowerPairs _ _ _).1 hij'
        have hij2 : j < i ∧ i < M.cols.length := (mem_lowerPairs _ _ _).1 hij
        have hgi : M.cols.getD i' "" = M.cols.getD i "" := congrArg Prod.fst htrip
        have hgj : M.cols.getD j' "" = M.cols.getD j "" := by
          have := congrArg Prod.snd htrip
          exact congrArg Prod.fst this
        have hvv : v' = v := by
          have := congrArg Prod.snd htrip
          exact congrArg Prod.snd this
        have hi : i' = i := by
          have h1 : M.cols.getD i' "" = M.cols.get ⟨i', hj'.2⟩ := by
            simp [List.getD_eq_getElem?_getD, List.getElem?_eq_getElem hj'.2]
          have h2 : M.cols.getD i "" = M.cols.get ⟨i, hij2.2⟩ := by
            simp [List.getD_eq_getElem?_getD, List.getElem?_eq_getElem hij2.2]
          have := hgi
          rw [h1, h2] at this
          have := List.Nodup.get_inj_iff hcols |>.1 this
          exact congrArg Fin.val this
        subst hi
        subst hvv
        exact hfb
      · simp [pairContrib, he, hfb] at hc
  · intro hfb
    refine List.mem_filterMap.2 ⟨(i, j), hij, ?_⟩
    simp [pairContrib, hv, hfb]

/-- Witness for C4 at a concrete matrix and threshold table. -/
theorem categorizer_first_match_wins_witness :
    (["a", "b"] : List String).Nodup ∧
    (∀ L ∈ ([("band1", ((3:ℚ)/10, (1:ℚ)/2))] : ThTable).map (·.1),
      rlookup (analyze_feature_correlations
        ⟨["a", "b"], fun _ _ => some (2/5)⟩
        (some [("band1", ((3:ℚ)/10, (1:ℚ)/2))])) L
        = some ((lowerPairs 2).filterMap
            (pairContrib ⟨["a", "b"], fun _ _ => some (2/5)⟩
              [("band1", ((3:ℚ)/10, (1:ℚ)/2))] L))) := by
  have h := categorizer_first_match_wins
    ⟨["a", "b"], fun _ _ => some (2/5)⟩
    [("band1", ((3:ℚ)/10, (1:ℚ)/2))] (by decide)
  exact ⟨by decide, h.1⟩

end AlzPrep

namespace AlzPrep

/-! ## High-missingness column dropper — `tranformerColumnsHighNA.py` -/

/-- Instance state of `DropColumnsHighNA`.  The `Option` on
`columns_to_drop_` models Python attribute presence: `__init__` (line 23)
unconditionally sets the attribute, so every constructed instance carries
`some _`; `transform`'s `hasattr` check (line 79) corresponds to `none`. -/
structure HighNAState where
  threshold : ℚ
  columns_to_drop_ : Option (List String)
  deriving DecidableEq, Repr

/-- `DropColumnsHighNA.__init__` (lines 13–25): rejects a threshold
outside `[0, 100]`, then stores the threshold and an empty drop-list. -/
def DropColumnsHighNA_init (threshold : ℚ) : Except Err HighNAState :=
  if ¬ (0 ≤ threshold ∧ threshold ≤ 100) then .error Err.valueError
  else .ok { threshold := threshold, columns_to_drop_ := some [] }

/-- `X.isnull().sum() * 100 / len(X)` for one column (line 48). -/
def missingPercentage (X : Table) (c : Col) : ℚ :=
  (c.naCount : ℚ) * 100 / (X.nrows : ℚ)

/-- The drop-list learned by `DropColumnsHighNA.fit` (lines 41–51): empty
on an empty frame, otherwise the columns whose missing percentage is
`≥ threshold`. -/
def highNAfitList (threshold : ℚ) (X : Table) : List String :=
  if X.isEmptyTab then []
  else (X.filter (fun c => threshold ≤ missingPercentage X c)).map (·.name)

/-- `DropColumnsHighNA.fit`. -/
def DropColumnsHighNA_fit (s : HighNAState) (X : Table) : HighNAState :=
  { s with columns_to_drop_ := some (highNAfitList s.threshold X) }

/-- `X.drop(columns=cols)` (returns a new frame). -/
def dropColumns (X : Table) (cols : List String) : Table :=
  X.filter (fun c => !cols.contains c.name)

/-- `DropColumnsHighNA.transform` (lines 65–103): error if the drop-list
attribute is absent (unreachable after `__init__`), otherwise drop the
learned columns that are present in the current frame. -/
def DropColumnsHighNA_transform (s : HighNAState) (X : Table) :
    Except Err Table :=
  match s.columns_to_drop_ with
  | none => .error Err.runtimeError
  | some cols =>
      let colsNow := cols.filter (fun col => X.colNames.contains col)
      if colsNow.isEmpty then .ok X
      else .ok (dropColumns X colsNow)

/-- C6: with a threshold in `[0, 100]` and a non-empty rectangular table
with distinct column names, `fit` records a column exactly when
`missing_count / row_count * 100 ≥ threshold`; in particular an
all-missing column is always recorded, and a column with no missing
values is never recorded when the threshold is positive. -/
theorem highNA_fit_drop_list_iff (t : ℚ) (X : Table)
    (ht0 : 0 ≤ t) (ht1 : t ≤ 100)
    (hne : X.isEmptyTab = false) (hrect : Rect X)
    (hnodup : X.colNames.Nodup) :
    (∀ c ∈ X, (c.name ∈ highNAfitList t X ↔ t ≤ missingPercentage X c)) ∧
    (∀ c ∈ X, c.naCount = c.cells.length → c.name ∈ highNAfitList t X) ∧
    (∀ c ∈ X, c.naCount = 0 → 0 < t → c.name ∉ highNAfitList t X) := by
  have hrows : X.nrows ≠ 0 := by
    intro h
    simp [Table.isEmptyTab, h] at hne
  have hmain : ∀ c ∈ X, (c.name ∈ highNAfitList t X ↔
      t ≤ missingPercentage X c) := by
    intro c hc
    unfold highNAfitList
    rw [hne]
    simp only [Bool.false_eq_true, if_false, List.mem_map]
    constructor
    · rintro ⟨c', hc', hname⟩
      rcases List.mem_filter.1 hc' with ⟨hc'X, hp⟩
      have hcc : c' = c := by
        have hinj := List.inj_on_of_nodup_map hnodup
        exact hinj hc'X hc hname
      subst hcc
      exact of_decide_eq_true hp
    · intro hp
      exact ⟨c, List.mem_filter.2 ⟨hc, decide_eq_true hp⟩, rfl⟩
  refine ⟨hmain, ?_, ?_⟩
  · intro c hc hall
    apply (hmain c hc).2
    have hlen : c.cells.length = X.nrows := hrect c hc
    have : missingPercentage X c = 100 := by
      unfold missingPercentage
      rw [hall, hlen]
      have : (X.nrows : ℚ) ≠ 0 := by exact_mod_cast hrows
      field_simp
    rw [this]
    exact ht1
  · intro c hc hzero hpos
    rw [hmain c hc]
    unfold missingPercentage
    rw [hzero]
    push_cast
    rw [zero_mul, zero_div]
    exact not_le.2 hpos

/-- Witness for C6 on a concrete table: one all-missing column, one
fully-present column, threshold 70. -/
theorem highNA_fit_drop_list_iff_witness :
    ((0:ℚ) ≤ 70 ∧ (70:ℚ) ≤ 100 ∧
      (Table.isEmptyTab [⟨"full", .floatD, [.na, .na]⟩,
        ⟨"clean", .floatD, [.num 1, .num 2]⟩] = false) ∧
      Rect [⟨"full", .floatD, [.na, .na]⟩,
        ⟨"clean", .floatD, [.num 1, .num 2]⟩] ∧
      (Table.colNames [⟨"full", .floatD, [.na, .na]⟩,
        ⟨"clean", .floatD, [.num 1, .num 2]⟩]).Nodup) ∧
    (∀ c ∈ ([⟨"full", .floatD, [.na, .na]⟩,
        ⟨"clean", .floatD, [.num 1, .num 2]⟩] : Table),
      (c.name ∈ highNAfitList 70 [⟨"full", .floatD, [.na, .na]⟩,
          ⟨"clean", .floatD, [.num 1, .num 2]⟩] ↔
        (70:ℚ) ≤ missingPercentage [⟨"full", .floatD, [.na, .na]⟩,
          ⟨"clean", .floatD, [.num 1, .num 2]⟩] c)) := by
  refine ⟨⟨by norm_num, by norm_num, by decide, by unfold Rect; decide,
    by decide⟩, ?_⟩
  exact (highNA_fit_drop_list_iff 70
    [⟨"full", .floatD, [.na, .na]⟩, ⟨"clean", .floatD, [.num 1, .num 2]⟩]
    (by norm_num) (by norm_num) (by decide) (by unfold Rect; decide)
    (by decide)).1

end AlzPrep

namespace AlzPrep

/-! ## Low-variance numeric dropper — `transformerDropLowVarNum.py` -/

/-- `MinMaxScaler().fit(...)` then `.transform(...)` applied to one
column: map each present value to `(x - min) / (max - min)`, where a zero
range is replaced by 1 (sklearn's zero-range handling, which sends a
constant column to 0); missing values pass through. -/
def minmaxScale (l : List (Option ℚ)) : List (Option ℚ) :=
  l.map (Option.map (fun x =>
    (x - listMin (dropNa l)) /
      (if listMax (dropNa l) - listMin (dropNa l) = 0 then 1
       else listMax (dropNa l) - listMin (dropNa l))))

/-- `X.select_dtypes(include=np.number)` (line 65). -/
def numericColsOf (X : Table) : List Col :=
  X.filter (fun c => c.dtype.isNumeric)

/-- Columns with `nunique(dropna=True) > 0` (lines 78–85). -/
def validForScaling (X : Table) : List Col :=
  (numericColsOf X).filter (fun c => decide (0 < nuniqueV c.numVals))

/-- Population variance of a column after the temporary per-column
min-max rescaling (lines 119–120, `var(ddof=0)` on the scaled frame). -/
def scaledVar (c : Col) : Option ℚ :=
  popVar? (minmaxScale c.numVals)

/-- Scaled-variance-zero (CONSTANT) columns, lines 122–125. -/
def zeroVarColsOf (X : Table) : List String :=
  ((validForScaling X).filter (fun c => scaledVar c == some 0)).map (·.name)

/-- QUASI-CONSTANT columns: `0 < scaled_var < threshold`, lines 136–141. -/
def quasiColsOf (thr : ℚ) (X : Table) : List String :=
  ((validForScaling X).filter (fun c =>
    match scaledVar c with
    | some v => decide (0 < v) && decide (v < thr)
    | none => false)).map (·.name)

/-- Numeric columns that were not scaled (`nunique = 0`), lines 151–155. -/
def unscaledOf (X : Table) : List Col :=
  (numericColsOf X).filter (fun c => !decide (0 < nuniqueV c.numVals))

/-- Unscaled columns with raw `var(ddof=0) == 0.0` (lines 156–171; an
all-missing column has NaN variance, which the `== 0.0` mask drops). -/
def zeroUnscaledOf (X : Table) : List String :=
  ((unscaledOf X).filter (fun c => popVar? c.numVals == some 0)).map (·.name)

/-- The drop-list learned by `IdentifyAndDropLowVarNum.fit`
(lines 47–181).  Python finishes with `list(set(...))`, whose order is
unspecified; `dedup` fixes one order, and only membership is relied upon
downstream. -/
def lowVarFitList (thr : ℚ) (X : Table) : List String :=
  if (numericColsOf X).isEmpty then []
  else if (validForScaling X).isEmpty then
    ((numericColsOf X).filter (fun c => popVar? c.numVals == some 0)).map
      (·.name)
  else
    (zeroVarColsOf X ++ quasiColsOf thr X ++ zeroUnscaledOf X).dedup

/-- Instance state of `IdentifyAndDropLowVarNum`; `columns_to_drop_` is
`Option` for the same attribute-presence reason as `HighNAState`
(`__init__`, lines 36–45, always sets it). -/
structure LowVarState where
  quasi_constant_threshold : ℚ
  numeric_cols_considered_ : List String
  columns_to_drop_ : Option (List String)
  deriving DecidableEq, Repr

/-- `IdentifyAndDropLowVarNum.__init__` (lines 25–45). -/
def IdentifyAndDropLowVarNum_init (thr : ℚ) : Except Err LowVarState :=
  if thr < 0 then .error Err.valueError
  else .ok { quasi_constant_threshold := thr
           , numeric_cols_considered_ := []
           , columns_to_drop_ := some [] }

/-- `IdentifyAndDropLowVarNum.fit` (lines 47–181). -/
def IdentifyAndDropLowVarNum_fit (s : LowVarState) (X : Table) :
    LowVarState :=
  { s with numeric_cols_considered_ := (numericColsOf X).map (·.name)
         , columns_to_drop_ :=
             some (lowVarFitList s.quasi_constant_threshold X) }

/-- `IdentifyAndDropLowVarNum.transform` (lines 183–219). -/
def IdentifyAndDropLowVarNum_transform (s : LowVarState) (X : Table) :
    Except Err Table :=
  match s.columns_to_drop_ with
  | none => .error Err.runtimeError
  | some cols =>
      let colsNow := cols.filter (fun col => X.colNames.contains col)
      if colsNow.isEmpty then .ok X
      else .ok (dropColumns X colsNow)

/-! ### Arithmetic helper lemmas -/

theorem mem_dropNa {l : List (Option ℚ)} {x : ℚ} :
    x ∈ dropNa l ↔ some x ∈ l := by
  unfold dropNa
  constructor
  · intro h
    rcases List.mem_filterMap.1 h with ⟨a, ha, hax⟩
    cases a with
    | none => simp at hax
    | some y => cases hax; exact ha
  · intro h
    exact List.mem_filterMap.2 ⟨some x, h, rfl⟩

theorem dropNa_map (l : List (Option ℚ)) (f : ℚ → ℚ) :
    dropNa (l.map (Option.map f)) = (dropNa l).map f := by
  unfold dropNa
  rw [List.filterMap_map, List.map_filterMap]
  rfl

theorem qsum_all_eq {l : List ℚ} {v : ℚ} (h : ∀ x ∈ l, x = v) :
    qsum l = l.length * v := by
  induction l with
  | nil => simp [qsum]
  | cons a l ih =>
    have ha : a = v := h a (List.mem_cons_self a l)
    have hl : ∀ x ∈ l, x = v := fun x hx => h x (List.mem_cons_of_mem a hx)
    simp only [qsum, List.sum_cons, List.length_cons] at *
    rw [ih hl, ha]
    push_cast
    ring

theorem qsum_pos_of_mem {l : List ℚ} {x : ℚ} (hx : x ∈ l) (hxpos : 0 < x)
    (h : ∀ y ∈ l, 0 ≤ y) : 0 < qsum l := by
  have hperm := List.perm_cons_erase hx
  have hsum : l.sum = x + (l.erase x).sum := by
    rw [hperm.sum_eq]
    simp
  have hrest : 0 ≤ (l.erase x).sum :=
    List.sum_nonneg (fun y hy => h y (List.mem_of_mem_erase hy))
  unfold qsum
  rw [hsum]
  linarith

theorem mean?_eq {l : List ℚ} (h : l ≠ []) :
    mean? l = some (qsum l / l.length) := by
  unfold mean?
  rw [if_neg (by simpa [List.isEmpty_iff] using h)]

theorem popVar?_of_all_eq {l : List (Option ℚ)} {v : ℚ}
    (hne : dropNa l ≠ []) (h : ∀ x ∈ dropNa l, x = v) :
    popVar? l = some 0 := by
  have hlen : (0 : ℚ) < (dropNa l).length := by
    exact_mod_cast List.length_pos.2 hne
  have hmean : mean? (dropNa l) = some v := by
    rw [mean?_eq hne, qsum_all_eq h]
    congr 1
    field_simp
  unfold popVar?
  rw [hmean, Option.map_some']
  congr 1
  have hz : ∀ y ∈ (dropNa l).map (fun x => (x - v) * (x - v)), y = 0 := by
    intro y hy
    rcases List.mem_map.1 hy with ⟨x, hx, rfl⟩
    rw [h x hx]
    ring
  rw [qsum_all_eq hz]
  simp

theorem popVar?_pos {l : List (Option ℚ)} {x y : ℚ}
    (hx : x ∈ dropNa l) (hy : y ∈ dropNa l) (hxy : x ≠ y) :
    ∃ w, popVar? l = some w ∧ 0 < w := by
  have hne : dropNa l ≠ [] := fun h => by rw [h] at hx; simp at hx
  have hlen : (0 : ℚ) < (dropNa l).length := by
    exact_mod_cast List.length_pos.2 hne
  unfold popVar?
  rw [mean?_eq hne, Option.map_some']
  refine ⟨_, rfl, ?_⟩
  set m := qsum (dropNa l) / (dropNa l).length with hm
  have hxy' : x ≠ m ∨ y ≠ m := by
    by_contra hc
    push_neg at hc
    exact hxy (hc.1.trans hc.2.symm)
  have hnn : ∀ z ∈ (dropNa l).map (fun t => (t - m) * (t - m)), 0 ≤ z := by
    intro z hz
    rcases List.mem_map.1 hz with ⟨t, _, rfl⟩
    exact mul_self_nonneg _
  have hpos : 0 < qsum ((dropNa l).map (fun t => (t - m) * (t - m))) := by
    rcases hxy' with hne' | hne'
    · refine qsum_pos_of_mem (List.mem_map_of_mem _ hx) ?_ hnn
      exact lt_of_le_of_ne (mul_self_nonneg _)
        (Ne.symm (mul_ne_zero (sub_ne_zero.2 hne') (sub_ne_zero.2 hne')))
    · refine qsum_pos_of_mem (List.mem_map_of_mem _ hy) ?_ hnn
      exact lt_of_le_of_ne (mul_self_nonneg _)
        (Ne.symm (mul_ne_zero (sub_ne_zero.2 hne') (sub_ne_zero.2 hne')))
  positivity

theorem isEmpty_false_of_mem {α : Type} {l : List α} {x : α} (h : x ∈ l) :
    l.isEmpty = false := by
  cases l with
  | nil => simp at h
  | cons a l => rfl

theorem name_mem_filtered_names {X : Table} {S : List Col} {p : Col → Bool}
    {c : Col} (hS : ∀ d ∈ S, d ∈ X) (hnodup : X.colNames.Nodup)
    (hc : c ∈ X) :
    c.name ∈ (S.filter p).map (·.name) ↔ (c ∈ S ∧ p c = true) := by
  constructor
  · intro h
    rcases List.mem_map.1 h with ⟨c', hc', hname⟩
    rcases List.mem_filter.1 hc' with ⟨hcS, hp⟩
    have hcc : c' = c := List.inj_on_of_nodup_map hnodup (hS c' hcS) hc hname
    subst hcc
    exact ⟨hcS, hp⟩
  · rintro ⟨h1, h2⟩
    exact List.mem_map.2 ⟨c, List.mem_filter.2 ⟨h1, h2⟩, rfl⟩

end AlzPrep

namespace AlzPrep

/-- C7: for the low-variance dropper's `fit` on a table with distinct
column names and a non-negative configured threshold: (a) a numeric
column holding one repeated value on every row is always in the learned
drop-list; (b) a numeric column holding exactly two distinct values with
equal counts is never flagged constant — its variance after per-column
min-max rescaling (population variance, divide by N) is positive — and
it lands in the drop-list exactly when that rescaled variance is below
the configured threshold. -/
theorem lowVar_fit_drop_list (thr : ℚ) (X : Table) (hthr : 0 ≤ thr)
    (hnodup : X.colNames.Nodup) :
    (∀ c ∈ X, c.dtype.isNumeric = true → ∀ v : ℚ, c.cells ≠ [] →
      (∀ x ∈ c.cells, x = Cell.num v) →
      c.name ∈ lowVarFitList thr X) ∧
    (∀ c ∈ X, c.dtype.isNumeric = true → ∀ a b : ℚ, a ≠ b →
      ∀ k : Nat, 0 < k →
      c.cells.count (Cell.num a) = k → c.cells.count (Cell.num b) = k →
      (∀ x ∈ c.cells, x = Cell.num a ∨ x = Cell.num b) →
      ∃ w : ℚ, scaledVar c = some w ∧ 0 < w ∧
        (c.name ∈ lowVarFitList thr X ↔ w < thr)) := by
  constructor
  · -- (a) constant column
    intro c hc hnum v hne hall
    have hvals : ∀ x ∈ c.numVals, x = some v := by
      intro x hx
      rcases List.mem_map.1 hx with ⟨t, ht, rfl⟩
      rw [hall t ht]
    have hsome : some v ∈ c.numVals := by
      rcases List.exists_mem_of_ne_nil c.cells hne with ⟨t, ht⟩
      have htv := hall t ht
      subst htv
      exact List.mem_map.2 ⟨Cell.num v, ht, rfl⟩
    have hdne : dropNa c.numVals ≠ [] := by
      intro h
      have hmem : v ∈ dropNa c.numVals := mem_dropNa.2 hsome
      rw [h] at hmem
      simp at hmem
    have hdall : ∀ x ∈ dropNa c.numVals, x = v := by
      intro x hx
      have := hvals (some x) (mem_dropNa.1 hx)
      exact Option.some.inj this
    have hcnum : c ∈ numericColsOf X := List.mem_filter.2 ⟨hc, hnum⟩
    have hnun : 0 < nuniqueV c.numVals := by
      unfold nuniqueV
      refine List.length_pos.2 (fun h0 => hdne ?_)
      exact (List.dedup_eq_nil _).1 h0
    have hcvalid : c ∈ validForScaling X :=
      List.mem_filter.2 ⟨hcnum, decide_eq_true hnun⟩
    have hz : scaledVar c = some 0 := by
      unfold scaledVar minmaxScale
      apply popVar?_of_all_eq
        (v := (v - listMin (dropNa c.numVals)) /
          (if listMax (dropNa c.numVals) - listMin (dropNa c.numVals) = 0
           then 1
           else listMax (dropNa c.numVals) - listMin (dropNa c.numVals)))
      · rw [dropNa_map]
        intro h
        exact hdne (List.map_eq_nil_iff.1 h)
      · rw [dropNa_map]
        intro x hx
        rcases List.mem_map.1 hx with ⟨t, ht, rfl⟩
        rw [hdall t ht]
    unfold lowVarFitList
    rw [isEmpty_false_of_mem hcnum, isEmpty_false_of_mem hcvalid]
    simp only [Bool.false_eq_true, if_false, List.mem_dedup, List.mem_append]
    refine Or.inl (Or.inl ?_)
    refine List.mem_map.2 ⟨c, List.mem_filter.2 ⟨hcvalid, ?_⟩, rfl⟩
    rw [hz]
    rfl
  · -- (b) evenly-spread two-valued column
    intro c hc hnum a b hab k hk hca hcb hall
    have hma : Cell.num a ∈ c.cells := by
      have : 0 < c.cells.count (Cell.num a) := by rw [hca]; exact hk
      exact List.count_pos_iff.1 this
    have hmb : Cell.num b ∈ c.cells := by
      have : 0 < c.cells.count (Cell.num b) := by rw [hcb]; exact hk
      exact List.count_pos_iff.1 this
    have hsa : a ∈ dropNa c.numVals :=
      mem_dropNa.2 (List.mem_map.2 ⟨Cell.num a, hma, rfl⟩)
    have hsb : b ∈ dropNa c.numVals :=
      mem_dropNa.2 (List.mem_map.2 ⟨Cell.num b, hmb, rfl⟩)
    set mn := listMin (dropNa c.numVals) with hmn
    set dn := (if listMax (dropNa c.numVals) - mn = 0 then 1
               else listMax (dropNa c.numVals) - mn) with hdn
    have hdn0 : dn ≠ 0 := by
      rw [hdn]
      split
      · exact one_ne_zero
      · next h => exact h
    have hfab : (a - mn) / dn ≠ (b - mn) / dn := by
      intro h
      apply hab
      rw [div_eq_div_iff hdn0 hdn0] at h
      have h3 := mul_right_cancel₀ hdn0 h
      linarith
    have hmemx : (a - mn) / dn ∈ dropNa (minmaxScale c.numVals) := by
      unfold minmaxScale
      rw [← hmn, ← hdn, dropNa_map]
      exact List.mem_map_of_mem _ hsa
    have hmemy : (b - mn) / dn ∈ dropNa (minmaxScale c.numVals) := by
      unfold minmaxScale
      rw [← hmn, ← hdn, dropNa_map]
      exact List.mem_map_of_mem _ hsb
    obtain ⟨w, hw, hwpos⟩ := popVar?_pos hmemx hmemy hfab
    have hsv : scaledVar c = some w := hw
    have hcnum : c ∈ numericColsOf X := List.mem_filter.2 ⟨hc, hnum⟩
    have hnun : 0 < nuniqueV c.numVals := by
      unfold nuniqueV
      refine List.length_pos.2 (fun h0 => ?_)
      have : dropNa c.numVals = [] := (List.dedup_eq_nil _).1 h0
      rw [this] at hsa
      simp at hsa
    have hcvalid : c ∈ validForScaling X :=
      List.mem_filter.2 ⟨hcnum, decide_eq_true hnun⟩
    refine ⟨w, hsv, hwpos, ?_⟩
    have hSvalid : ∀ d ∈ validForScaling X, d ∈ X := fun d hd =>
      (List.mem_filter.1 (List.mem_filter.1 hd).1).1
    have hSunsc : ∀ d ∈ unscaledOf X, d ∈ X := fun d hd =>
      (List.mem_filter.1 (List.mem_filter.1 hd).1).1
    unfold lowVarFitList
    rw [isEmpty_false_of_mem hcnum, isEmpty_false_of_mem hcvalid]
    simp only [Bool.false_eq_true, if_false, List.mem_dedup, List.mem_append]
    unfold zeroVarColsOf quasiColsOf zeroUnscaledOf
    rw [name_mem_filtered_names hSvalid hnodup hc,
      name_mem_filtered_names hSvalid hnodup hc,
      name_mem_filtered_names hSunsc hnodup hc]
    constructor
    · rintro ((⟨_, hz⟩ | ⟨_, hq⟩) | ⟨hu, _⟩)
      · rw [hsv] at hz
        have hw0 : w = 0 := by simpa using hz
        exact absurd hw0 (ne_of_gt hwpos)
      · rw [hsv] at hq
        simp only [decide_eq_true_eq, Bool.and_eq_true] at hq
        exact hq.2
      · have hpred := (List.mem_filter.1 hu).2
        simp only [Bool.not_eq_true', decide_eq_false_iff_not] at hpred
        exact absurd hnun hpred
    · intro hlt
      refine Or.inl (Or.inr ⟨hcvalid, ?_⟩)
      rw [hsv]
      simp [hwpos, hlt]

end AlzPrep

namespace AlzPrep

/-- Witness for C7 on a concrete table: a constant column `[5, 5]` lands
in the drop-list, and an evenly spread two-valued column `[0, 1, 0, 1]`
(rescaled variance `1/4`) does not at threshold `1/100`. -/
theorem lowVar_fit_drop_list_witness :
    ((0:ℚ) ≤ 1/100 ∧
      (Table.colNames [⟨"constC", .floatD, [.num 5, .num 5]⟩,
        ⟨"twoV", .floatD, [.num 0, .num 1, .num 0, .num 1]⟩]).Nodup) ∧
    "constC" ∈ lowVarFitList (1/100)
      [⟨"constC", .floatD, [.num 5, .num 5]⟩,
       ⟨"twoV", .floatD, [.num 0, .num 1, .num 0, .num 1]⟩] ∧
    "twoV" ∉ lowVarFitList (1/100)
      [⟨"constC", .floatD, [.num 5, .num 5]⟩,
       ⟨"twoV", .floatD, [.num 0, .num 1, .num 0, .num 1]⟩] := by
  have h := lowVar_fit_drop_list (1/100)
    [⟨"constC", .floatD, [.num 5, .num 5]⟩,
     ⟨"twoV", .floatD, [.num 0, .num 1, .num 0, .num 1]⟩]
    (by norm_num) (by decide)
  refine ⟨⟨by norm_num, by decide⟩, ?_, ?_⟩
  · exact h.1 ⟨"constC", .floatD, [.num 5, .num 5]⟩ (by decide) (by decide) 5
      (by decide) (by decide)
  · obtain ⟨w, hw, hwpos, hiff⟩ :=
      h.2 ⟨"twoV", .floatD, [.num 0, .num 1, .num 0, .num 1]⟩
        (by decide) (by decide) 0 1 (by norm_num) 2 (by norm_num)
        (by decide) (by decide) (by decide)
    intro hmem
    have hlt := hiff.1 hmem
    have hW : scaledVar ⟨"twoV", .floatD, [.num 0, .num 1, .num 0, .num 1]⟩
        = some (1/4) := by
      norm_num [scaledVar, popVar?, minmaxScale, mean?, qsum, dropNa,
        listMin, listMax, Col.numVals, List.filterMap_cons, List.foldl_cons,
        List.foldl_nil, min_def, max_def, List.sum_cons, List.sum_nil,
        Option.map_some, Option.map_none, List.map_cons, List.map_nil]
    rw [hW] at hw
    have hw14 : w = 1/4 := (Option.some.inj hw).symm
    rw [hw14] at hlt
    norm_num at hlt

end AlzPrep

namespace AlzPrep

/-! ## Missing-value imputer — `transformerImputeMissingValues.py` -/

/-- First mode value of a numeric series (pandas `Series.mode()` sorts the
most-frequent values ascending; `iloc[0]` picks the smallest), with the
source's fallback `0` for an empty mode (lines 64–68). -/
def modeQ (l : List ℚ) : ℚ :=
  let u := (List.insertionSort (· ≤ ·) l).dedup
  let mx := (u.map (fun x => l.count x)).foldl max 0
  match u.filter (fun x => l.count x == mx) with
  | [] => 0
  | x :: _ => x

/-- Deterministic order used to model pandas' ascending sort of mode
values; object columns are homogeneous, so only same-kind comparisons
occur in practice. -/
def cellLE : Cell → Cell → Bool
  | .str a, .str b => a ≤ b
  | .num a, .num b => a ≤ b
  | .boolV a, .boolV b => !a || b
  | _, _ => true

/-- First mode value of a non-numeric column's cells (missing dropped),
with a caller-supplied fallback for an empty mode (lines 78–82). -/
def modeCellD (l : List Cell) (fallback : Cell) : Cell :=
  let nonNa := l.filter (fun x => x != Cell.na)
  let u := (List.insertionSort (fun a b => cellLE a b = true) nonNa).dedup
  let mx := (u.map (fun x => nonNa.count x)).foldl max 0
  match u.filter (fun x => nonNa.count x == mx) with
  | [] => fallback
  | x :: _ => x

/-- The scalar fill value learned for a numeric column with missing
entries (lines 59–68).  The strategy string was validated at
construction, so the final branch is `"mode"`.  `mean`/`median` of an
all-missing column is pandas NaN, whose later `fillna` fills nothing;
that is modelled as `none` (no fill). -/
def numFillValue (strategy : String) (c : Col) : Option ℚ :=
  if strategy = "mean" then mean? (dropNa c.numVals)
  else if strategy = "median" then median? (dropNa c.numVals)
  else some (modeQ (dropNa c.numVals))

/-- Instance state of `MissingValueImputer`.  `numerical_cols_` is
`Option` to model the attribute-presence test of line 116 (`__init__`,
line 34, always sets it). -/
structure ImputerState where
  num_strategy : String
  cat_strategy : Cell
  num_imputers_ : List (String × Option ℚ)
  cat_imputers_ : List (String × Option Cell)
  numerical_cols_ : Option (List String)
  categorical_cols_ : List String
  deriving DecidableEq, Repr

/-- `MissingValueImputer.__init__` (lines 15–35): rejects an unknown
numeric strategy; `cat_strategy` doubles as the sentinel `"mode"` or a
constant fill value. -/
def MissingValueImputer_init (num_strategy : String) (cat_strategy : Cell) :
    Except Err ImputerState :=
  if num_strategy ≠ "mean" ∧ num_strategy ≠ "median" ∧
      num_strategy ≠ "mode" then
    .error Err.valueError
  else
    .ok { num_strategy := num_strategy
        , cat_strategy := cat_strategy
        , num_imputers_ := []
        , cat_imputers_ := []
        , numerical_cols_ := some []
        , categorical_cols_ := [] }

/-- `MissingValueImputer.fit` (lines 37–95).  The source iterates over the
learned column names and indexes `X_fit[col]`, i.e. maps over the
selected columns; a column without missing values stores the explicit
`None` placeholder. -/
def MissingValueImputer_fit (s : ImputerState) (X : Table) : ImputerState :=
  let numCols := X.filter (fun c => c.dtype.isNumeric)
  let catCols := X.filter (fun c => !c.dtype.isNumeric)
  { s with
    numerical_cols_ := some (numCols.map (·.name))
    categorical_cols_ := catCols.map (·.name)
    num_imputers_ := numCols.map (fun c =>
      if c.hasNa then (c.name, numFillValue s.num_strategy c)
      else (c.name, none))
    cat_imputers_ := catCols.map (fun c =>
      if c.hasNa then
        (c.name,
          if s.cat_strategy == Cell.str "mode" then
            some (modeCellD c.cells (Cell.str "Unknown"))
          else some s.cat_strategy)
      else (c.name, none)) }

/-- `X_transformed[col] = X_transformed[col].fillna(fill)`. -/
def fillNaInCol (X : Table) (colName : String) (fill : Cell) : Table :=
  X.map (fun c =>
    if c.name = colName then
      { c with cells := c.cells.map (fun x => if x == Cell.na then fill else x) }
    else c)

/-- Whether the (first) column labelled `col` currently has missing
entries (`X_transformed[col].isnull().any()`). -/
def Table.colHasNa (X : Table) (col : String) : Bool :=
  match X.find? (fun c => c.name == col) with
  | some c => c.hasNa
  | none => false

/-- One iteration of the numeric imputation loop (lines 122–135): fill
only when the column is present, an imputer was learned, and it is not
the `None` placeholder; otherwise leave the column alone (warning only). -/
def imputeNumStep (s : ImputerState) (X : Table) (col : String) : Table :=
  if X.colNames.contains col then
    match alookup s.num_imputers_ col with
    | some (some v) =>
        if X.colHasNa col then fillNaInCol X col (Cell.num v) else X
    | _ => X
  else X

/-- One iteration of the categorical imputation loop (lines 138–151). -/
def imputeCatStep (s : ImputerState) (X : Table) (col : String) : Table :=
  if X.colNames.contains col then
    match alookup s.cat_imputers_ col with
    | some (some v) =>
        if X.colHasNa col then fillNaInCol X col v else X
    | _ => X
  else X

/-- `MissingValueImputer.transform` (lines 97–158).  The guard of
lines 109–117 raises only when the imputer dicts are empty, a fitted
column list is non-empty, and the `numerical_cols_` attribute is absent —
and `__init__` always sets that attribute. -/
def MissingValueImputer_transform (s : ImputerState) (X : Table) :
    Except Err Table :=
  if s.num_imputers_.isEmpty && s.cat_imputers_.isEmpty
      && (!(s.numerical_cols_.getD []).isEmpty
          || !s.categorical_cols_.isEmpty)
      && s.numerical_cols_.isNone then
    .error Err.runtimeError
  else
    .ok (s.categorical_cols_.foldl (imputeCatStep s)
      ((s.numerical_cols_.getD []).foldl (imputeNumStep s) X))

/-- The round-trip table of C3: numeric `A = [1, 2, null, 4]`, text
`B = ["x", "y", "x", "x"]`. -/
def tableC3 : Table :=
  [ ⟨"A", .floatD, [.num 1, .num 2, .na, .num 4]⟩
  , ⟨"B", .objD, [.str "x", .str "y", .str "x", .str "x"]⟩ ]

/-- `fit` then `transform` of a fresh default (`median`) imputer on C3's
table. -/
def imputerRoundTripC3 : Except Err Table :=
  (MissingValueImputer_init "median" (Cell.str "mode")).bind
    (fun s => MissingValueImputer_transform
      (MissingValueImputer_fit s tableC3) tableC3)

/-- C3's table with the null in `A` filled with `2` (the actual median of
the present values `[1, 2, 4]`); `B` untouched. -/
def tableC3_filled2 : Table :=
  [ ⟨"A", .floatD, [.num 1, .num 2, .num 2, .num 4]⟩
  , ⟨"B", .objD, [.str "x", .str "y", .str "x", .str "x"]⟩ ]

/-- C3's table as the claim describes the result: null filled with `2.5`. -/
def tableC3_claimed : Table :=
  [ ⟨"A", .floatD, [.num 1, .num 2, .num (5/2), .num 4]⟩
  , ⟨"B", .objD, [.str "x", .str "y", .str "x", .str "x"]⟩ ]

end AlzPrep

namespace AlzPrep

/-- C3 counterexample: on table `A=[1,2,null,4]`, `B=["x","y","x","x"]`,
`fit`+`transform` with `numeric_strategy="median"` fills the null in `A`
with `2` — the median of the three present values `[1, 2, 4]` — not with
the claimed `2.5`; the result is therefore not the claimed table. -/
theorem imputer_round_trip_median_not_2_5 :
    imputerRoundTripC3 ≠ Except.ok tableC3_claimed ∧
    imputerRoundTripC3 = Except.ok tableC3_filled2 := by
  have hres : imputerRoundTripC3 = Except.ok tableC3_filled2 := rfl
  refine ⟨?_, hres⟩
  rw [hres]
  intro h
  have htab := Except.ok.inj h
  rw [tableC3_filled2, tableC3_claimed] at htab
  norm_num [Col.mk.injEq] at htab

/-- C3 amended: the same round trip fills the null in `A` with `2.0`
(median of the present values) and leaves `B` unchanged. -/
theorem imputer_round_trip_median_fills_2 :
    imputerRoundTripC3 = Except.ok tableC3_filled2 := rfl

end AlzPrep

namespace AlzPrep

/-! ## Dtype conversion steps — `transformerDataTypesConversion.py` -/

/-- `X_copy[col] = X_copy[col].astype("category")`: retag the column's
dtype, cells unchanged. -/
def astypeCategory (X : Table) (col : String) : Table :=
  X.map (fun c => if c.name = col then { c with dtype := Dtype.catD } else c)

/-- The shared transform loop of all four converters:
`for col in learned: X_copy[col] = X_copy[col].astype("category")`. -/
def astypeFold (learned : List String) (X : Table) : Table :=
  learned.foldl astypeCategory X

/-- `SpecificColumnCategorizer` state (lines 9–14). -/
structure SpecificCatState where
  columns_to_categorize : List String
  fitted_columns_ : List String
  deriving DecidableEq, Repr

/-- `SpecificColumnCategorizer.__init__` (lines 12–14). -/
def SpecificColumnCategorizer_init (cols : List String) : SpecificCatState :=
  { columns_to_categorize := cols, fitted_columns_ := [] }

/-- `SpecificColumnCategorizer.fit` (lines 16–25): keep the configured
columns that exist in `X`. -/
def SpecificColumnCategorizer_fit (s : SpecificCatState) (X : Table) :
    SpecificCatState :=
  { s with fitted_columns_ :=
      s.columns_to_categorize.filter (fun col => X.colNames.contains col) }

/-- `SpecificColumnCategorizer.transform` (lines 27–32). -/
def SpecificColumnCategorizer_transform (s : SpecificCatState) (X : Table) :
    Table :=
  astypeFold s.fitted_columns_ X

/-- `ObjectToCategoryTransformer` state (lines 38–47). -/
structure ObjToCatState where
  threshold_ratio : ℚ
  max_unique : Nat
  object_cols_to_convert_ : List String
  deriving DecidableEq, Repr

/-- `ObjectToCategoryTransformer.__init__` (lines 44–47). -/
def ObjectToCategoryTransformer_init (tr : ℚ) (mu : Nat) : ObjToCatState :=
  { threshold_ratio := tr, max_unique := mu, object_cols_to_convert_ := [] }

/-- `Series.nunique()` on a column's cells (missing dropped). -/
def Col.nuniqueCells (c : Col) : Nat :=
  (c.cells.filter (fun x => x != Cell.na)).dedup.length

/-- The column list learned by `ObjectToCategoryTransformer.fit`
(lines 49–59): object columns with `n_unique / len < threshold_ratio`
and `n_unique ≤ max_unique` (AND, per the `Changed OR to AND` comment).
`n_unique / len(X[col])` is Python division: on a zero-row column it
raises `ZeroDivisionError`. -/
def objToCatFitList (tr : ℚ) (mu : Nat) (X : Table) :
    Except Err (List String) :=
  (X.filter (fun c => c.dtype == Dtype.objD)).foldlM
    (fun acc c => do
      let ratio ← pyDiv (c.nuniqueCells : ℚ) (c.cells.length : ℚ)
      if ratio < tr ∧ c.nuniqueCells ≤ mu then pure (acc ++ [c.name])
      else pure acc)
    []

/-- `ObjectToCategoryTransformer.fit`. -/
def ObjectToCategoryTransformer_fit (s : ObjToCatState) (X : Table) :
    Except Err ObjToCatState :=
  (objToCatFitList s.threshold_ratio s.max_unique X).map
    (fun l => { s with object_cols_to_convert_ := l })

/-- `ObjectToCategoryTransformer.transform` (lines 61–70). -/
def ObjectToCategoryTransformer_transform (s : ObjToCatState) (X : Table) :
    Table :=
  astypeFold s.object_cols_to_convert_ X

/-- The eligibility test of `FloatToCategoryTransformer.fit`
(lines 89–98) as one boolean: every non-missing unique value is `0.0` or
`1.0`, the unique list is non-empty, and (redundantly, given the first
condition) it has at most two entries. -/
def floatEligibleB (c : Col) : Bool :=
  ((dropNa c.numVals).dedup.all (fun v => v == 0 || v == 1)
      && !(dropNa c.numVals).dedup.isEmpty)
    && decide ((dropNa c.numVals).dedup.length ≤ 2)

/-- The column list learned by `FloatToCategoryTransformer.fit`
(lines 84–99): float columns passing `floatEligibleB`, in order. -/
def floatToCatFitList (X : Table) : List String :=
  (X.filter (fun c => c.dtype == Dtype.floatD)).foldl
    (fun acc c => if floatEligibleB c then acc ++ [c.name] else acc) []

/-- `FloatToCategoryTransformer` state (line 82). -/
structure FloatToCatState where
  float_cols_to_convert_ : List String
  deriving DecidableEq, Repr

/-- `FloatToCategoryTransformer.__init__` (lines 81–82). -/
def FloatToCategoryTransformer_init : FloatToCatState :=
  { float_cols_to_convert_ := [] }

/-- `FloatToCategoryTransformer.fit`. -/
def FloatToCategoryTransformer_fit (_s : FloatToCatState) (X : Table) :
    FloatToCatState :=
  { float_cols_to_convert_ := floatToCatFitList X }

/-- `FloatToCategoryTransformer.transform` (lines 101–112). -/
def FloatToCategoryTransformer_transform (s : FloatToCatState) (X : Table) :
    Table :=
  astypeFold s.float_cols_to_convert_ X

/-- `BooleanToCategoryTransformer` state (line 122). -/
structure BoolToCatState where
  bool_cols_to_convert_ : List String
  deriving DecidableEq, Repr

/-- `BooleanToCategoryTransformer.__init__` (lines 121–122). -/
def BooleanToCategoryTransformer_init : BoolToCatState :=
  { bool_cols_to_convert_ := [] }

/-- `BooleanToCategoryTransformer.fit` (lines 124–128). -/
def BooleanToCategoryTransformer_fit (_s : BoolToCatState) (X : Table) :
    BoolToCatState :=
  { bool_cols_to_convert_ :=
      (X.filter (fun c => c.dtype == Dtype.boolD)).map (·.name) }

/-- `BooleanToCategoryTransformer.transform` (lines 130–141). -/
def BooleanToCategoryTransformer_transform (s : BoolToCatState) (X : Table) :
    Table :=
  astypeFold s.bool_cols_to_convert_ X

end AlzPrep

namespace AlzPrep

/-! ## Strict column dropper — `transformerDropColumns.py` -/

/-- `ColumnDropper` state; the list-of-strings type checks of
`__init__` (lines 18–21) are enforced by the Lean type. -/
structure ColumnDropperState where
  columns_to_drop : List String
  fitted_columns_to_drop : List String
  deriving DecidableEq, Repr

/-- `ColumnDropper.__init__` (lines 13–24). -/
def ColumnDropper_init (cols : List String) : ColumnDropperState :=
  { columns_to_drop := cols, fitted_columns_to_drop := [] }

/-- `ColumnDropper.fit` (lines 26–62): raises `ValueError` when any
configured column is missing from the frame, otherwise validates the
whole configured list. -/
def ColumnDropper_fit (s : ColumnDropperState) (X : Table) :
    Except Err ColumnDropperState :=
  let missing := s.columns_to_drop.filter
    (fun col => !X.colNames.contains col)
  if !missing.isEmpty then .error Err.valueError
  else .ok { s with fitted_columns_to_drop := s.columns_to_drop }

/-- `ColumnDropper.transform` (lines 64–117). -/
def ColumnDropper_transform (s : ColumnDropperState) (X : Table) :
    Except Err Table :=
  if s.fitted_columns_to_drop.isEmpty then
    if s.columns_to_drop.isEmpty then .ok X
    else .error Err.runtimeError
  else
    let colsNow := s.fitted_columns_to_drop.filter
      (fun col => X.colNames.contains col)
    if colsNow.isEmpty then .ok X
    else .ok (dropColumns X colsNow)

end AlzPrep

namespace AlzPrep

/-- Modelled from the spec's words, for comparison with the code's
`floatEligibleB`: a floating-point column qualifies when its non-missing
values are a subset of `{0.0, 1.0}` (no non-emptiness requirement). -/
def specFloatEligible (c : Col) : Prop :=
  c.dtype = Dtype.floatD ∧ ∀ v ∈ dropNa c.numVals, v = 0 ∨ v = 1

/-- C8 counterexample: an all-missing float column has non-missing
values `∅ ⊆ {0.0, 1.0}`, so the claim says it is learned — but the code
additionally requires a non-empty unique list (`len(unique_values) > 0`)
and does not learn it. -/
theorem floatToCat_all_missing_not_learned :
    specFloatEligible ⟨"F", .floatD, [.na]⟩ ∧
    floatToCatFitList [⟨"F", .floatD, [.na]⟩] = [] := by
  constructor
  · refine ⟨rfl, ?_⟩
    intro v hv
    simp [dropNa, Col.numVals] at hv
  · rfl

theorem foldl_append_names (p : Col → Bool) (l : List Col)
    (init : List String) :
    l.foldl (fun acc c => if p c then acc ++ [c.name] else acc) init
      = init ++ (l.filter p).map (·.name) := by
  induction l generalizing init with
  | nil => simp
  | cons c l ih =>
    rw [List.foldl_cons]
    by_cases h : p c
    · rw [if_pos h, ih, List.filter_cons_of_pos h]
      simp
    · rw [if_neg h, ih, List.filter_cons_of_neg h]

theorem astypeFold_getElem? (learned : List String) (X : Table) (k : Nat) :
    (astypeFold learned X)[k]? = (X[k]?).map (fun c =>
      if learned.contains c.name then { c with dtype := Dtype.catD }
      else c) := by
  induction learned generalizing X with
  | nil =>
    cases hX : X[k]? <;> simp [astypeFold, hX]
  | cons a as ih =>
    have hstep : (astypeCategory X a)[k]? = (X[k]?).map (fun c =>
        if c.name = a then { c with dtype := Dtype.catD } else c) := by
      unfold astypeCategory
      rw [List.getElem?_map]
    have hfold : astypeFold (a :: as) X = astypeFold as (astypeCategory X a) :=
      rfl
    rw [hfold, ih, hstep]
    cases hX : X[k]? with
    | none => rfl
    | some c =>
      simp only [Option.map_some']
      by_cases hname : c.name = a
      · by_cases h2 : as.contains c.name
        · simp [hname, h2, List.contains_cons]
        · simp [hname, h2, List.contains_cons]
      · by_cases h2 : as.contains c.name
        · simp [hname, h2, List.contains_cons]
        · simp [hname, h2, List.contains_cons]

/-- C8 amended: `fit` learns exactly the float columns whose non-missing
values form a **non-empty** subset of `{0.0, 1.0}`, and `transform`
retags each learned column as categorical while leaving every other
column unchanged. -/
theorem floatToCat_fit_transform (X : Table) (hnodup : X.colNames.Nodup) :
    (∀ c ∈ X, (c.name ∈ floatToCatFitList X ↔
      c.dtype = Dtype.floatD ∧ dropNa c.numVals ≠ [] ∧
        ∀ v ∈ dropNa c.numVals, v = 0 ∨ v = 1)) ∧
    (∀ (learned : List String) (k : Nat),
      (astypeFold learned X)[k]? = (X[k]?).map (fun c =>
        if learned.contains c.name then { c with dtype := Dtype.catD }
        else c)) := by
  refine ⟨?_, fun learned k => astypeFold_getElem? learned X k⟩
  intro c hc
  have hS : ∀ d ∈ X.filter (fun c => c.dtype == Dtype.floatD), d ∈ X :=
    fun d hd => (List.mem_filter.1 hd).1
  have hlist : floatToCatFitList X =
      ((X.filter (fun c => c.dtype == Dtype.floatD)).filter
        floatEligibleB).map (·.name) := by
    unfold floatToCatFitList
    rw [foldl_append_names]
    rfl
  rw [hlist, name_mem_filtered_names hS hnodup hc]
  constructor
  · rintro ⟨hcS, hel⟩
    have hdt : c.dtype = Dtype.floatD := by
      have := (List.mem_filter.1 hcS).2
      simpa using this
    unfold floatEligibleB at hel
    simp only [Bool.and_eq_true, List.all_eq_true, Bool.not_eq_true',
      decide_eq_true_eq, Bool.or_eq_true, beq_iff_eq] at hel
    obtain ⟨⟨hall, hne⟩, _⟩ := hel
    refine ⟨hdt, ?_, ?_⟩
    · intro h0
      rw [h0] at hne
      simp at hne
    · intro v hv
      exact hall v (List.mem_dedup.2 hv)
  · rintro ⟨hdt, hne, hall⟩
    have hcS : c ∈ X.filter (fun c => c.dtype == Dtype.floatD) :=
      List.mem_filter.2 ⟨hc, by simp [hdt]⟩
    refine ⟨hcS, ?_⟩
    unfold floatEligibleB
    have hsub : (dropNa c.numVals).dedup ⊆ [0, 1] := by
      intro v hv
      rcases hall v (List.mem_dedup.1 hv) with h | h <;> simp [h]
    have hlen : (dropNa c.numVals).dedup.length ≤ 2 := by
      have := ((List.nodup_dedup _).subperm hsub).length_le
      simpa using this
    have hdne : ¬ (dropNa c.numVals).dedup.isEmpty := by
      intro h0
      rw [List.isEmpty_iff] at h0
      exact hne ((List.dedup_eq_nil _).1 h0)
    simp only [Bool.and_eq_true, List.all_eq_true, Bool.or_eq_true,
      beq_iff_eq, decide_eq_true_eq, Bool.not_eq_true']
    refine ⟨⟨fun v hv => hall v (List.mem_dedup.1 hv), ?_⟩, hlen⟩
    exact Bool.eq_false_iff.2 hdne

/-- Witness for C8's amended theorem: a float column `[0.0, null, 1.0]`
is learned. -/
theorem floatToCat_fit_transform_witness :
    (Table.colNames [(⟨"G", .floatD, [.num 0, .na, .num 1]⟩ : Col)]).Nodup ∧
    ((Col.name ⟨"G", .floatD, [.num 0, .na, .num 1]⟩) ∈
        floatToCatFitList [⟨"G", .floatD, [.num 0, .na, .num 1]⟩] ↔
      (Col.dtype ⟨"G", .floatD, [.num 0, .na, .num 1]⟩) = Dtype.floatD ∧
      dropNa (Col.numVals ⟨"G", .floatD, [.num 0, .na, .num 1]⟩) ≠ [] ∧
      ∀ v ∈ dropNa (Col.numVals ⟨"G", .floatD, [.num 0, .na, .num 1]⟩),
        v = 0 ∨ v = 1) :=
  ⟨by decide,
    (floatToCat_fit_transform [⟨"G", .floatD, [.num 0, .na, .num 1]⟩]
      (by decide)).1 _ (by decide)⟩

/-- C9: the strict column dropper's `fit` raises a `ValueError` that
propagates to the caller whenever some configured column to drop is
absent from the frame. -/
theorem columnDropper_fit_missing_raises (cfg : List String) (X : Table)
    (h : ∃ c ∈ cfg, ¬ c ∈ X.colNames) :
    ColumnDropper_fit (ColumnDropper_init cfg) X = .error Err.valueError := by
  obtain ⟨c, hc, hcX⟩ := h
  unfold ColumnDropper_fit ColumnDropper_init
  have hmem : c ∈ cfg.filter (fun col => !X.colNames.contains col) := by
    refine List.mem_filter.2 ⟨hc, ?_⟩
    simpa using hcX
  have hne := isEmpty_false_of_mem hmem
  simp [hne]
  exact ⟨c, hc, hcX⟩

/-- Witness for C9: dropping a column `"zz"` absent from a one-column
frame raises at fit time. -/
theorem columnDropper_fit_missing_raises_witness :
    (∃ c ∈ ["zz"], ¬ c ∈ Table.colNames [⟨"a", Dtype.floatD, []⟩]) ∧
    ColumnDropper_fit (ColumnDropper_init ["zz"]) [⟨"a", Dtype.floatD, []⟩]
      = .error Err.valueError :=
  ⟨⟨"zz", by decide, by decide⟩,
    columnDropper_fit_missing_raises ["zz"] [⟨"a", Dtype.floatD, []⟩]
      ⟨"zz", by decide, by decide⟩⟩

/-- C2: the claim says `transform` on a freshly constructed, never-fitted
step raises; in the code every `transform`-before-`fit` guard is dead
because `__init__` already sets the guarded attributes (empty drop-lists,
empty imputer dicts), so a fresh instance's `transform` raises nothing
and returns the input unchanged, for every step the claim lists. -/
theorem transform_before_fit_does_not_raise (X : Table) :
    ((DropColumnsHighNA_init 70).bind
        (fun s => DropColumnsHighNA_transform s X) = .ok X) ∧
    ((IdentifyAndDropLowVarNum_init (1/100)).bind
        (fun s => IdentifyAndDropLowVarNum_transform s X) = .ok X) ∧
    ((MissingValueImputer_init "median" (Cell.str "mode")).bind
        (fun s => MissingValueImputer_transform s X) = .ok X) ∧
    SpecificColumnCategorizer_transform
      (SpecificColumnCategorizer_init ["col1"]) X = X ∧
    ObjectToCategoryTransformer_transform
      (ObjectToCategoryTransformer_init (1/10) 50) X = X ∧
    FloatToCategoryTransformer_transform FloatToCategoryTransformer_init X
      = X ∧
    BooleanToCategoryTransformer_transform BooleanToCategoryTransformer_init X
      = X := by
  refine ⟨rfl, ?_, rfl, rfl, rfl, rfl, rfl⟩
  have h : IdentifyAndDropLowVarNum_init (1/100)
      = .ok { quasi_constant_threshold := 1/100
            , numeric_cols_considered_ := []
            , columns_to_drop_ := some [] } := by
    unfold IdentifyAndDropLowVarNum_init
    norm_num
  rw [h]
  rfl

end AlzPrep

namespace AlzPrep

/-- C5 counterexample: an empty (zero-row) table containing an
object-typed column makes `ObjectToCategoryTransformer.fit` raise a
`ZeroDivisionError` (`n_unique / len(X[col])` with `len = 0`), so not
every pipeline step tolerates an empty input table. -/
theorem objToCat_fit_empty_object_column_raises :
    Table.isEmptyTab [⟨"b", .objD, []⟩] = true ∧
    objToCatFitList (1/10) 50 [⟨"b", .objD, []⟩]
      = .error Err.zeroDivisionError := by
  refine ⟨rfl, ?_⟩
  unfold objToCatFitList
  simp only [List.filter_cons, List.filter_nil]
  norm_num [pyDiv, Col.nuniqueCells]
  rfl

/-- C5 amended: `fit` on an empty table (every column with zero rows,
including the no-column table) is tolerated with a valid learned state by
the high-missingness dropper, the low-variance dropper, the imputer, and
the specific/float/boolean converters; the object-to-category converter
tolerates it only when no object-typed column is present (otherwise its
fit raises a division error, see the counterexample). -/
theorem fit_on_empty_table_tolerated (X : Table)
    (hE : ∀ c ∈ X, c.cells = []) :
    (∀ t : ℚ, highNAfitList t X = []) ∧
    (∀ thr : ℚ, lowVarFitList thr X = []) ∧
    (∀ s : ImputerState,
      (∀ p ∈ (MissingValueImputer_fit s X).num_imputers_, p.2 = none) ∧
      (∀ p ∈ (MissingValueImputer_fit s X).cat_imputers_, p.2 = none)) ∧
    (∀ cols, (SpecificColumnCategorizer_fit
        (SpecificColumnCategorizer_init cols) X).fitted_columns_
      = cols.filter (fun col => X.colNames.contains col)) ∧
    ((∀ c ∈ X, c.dtype ≠ Dtype.objD) → ∀ (tr : ℚ) (mu : Nat),
      objToCatFitList tr mu X = .ok []) ∧
    floatToCatFitList X = [] ∧
    ((BooleanToCategoryTransformer_fit BooleanToCategoryTransformer_init
        X).bool_cols_to_convert_
      = (X.filter (fun c => c.dtype == Dtype.boolD)).map (·.name)) := by
  have hEmptyTab : X.isEmptyTab = true := by
    cases X with
    | nil => rfl
    | cons c X' =>
      have := hE c (List.mem_cons_self c X')
      simp [Table.isEmptyTab, Table.nrows, this]
  refine ⟨?_, ?_, ?_, fun cols => rfl, ?_, ?_, rfl⟩
  · intro t
    unfold highNAfitList
    rw [hEmptyTab]
    rfl
  · intro thr
    unfold lowVarFitList
    by_cases h : (numericColsOf X).isEmpty
    · simp [h]
    · have hb : (numericColsOf X).isEmpty = false := Bool.eq_false_iff.2 h
      have hvalid : validForScaling X = [] := by
        unfold validForScaling
        rw [List.filter_eq_nil_iff]
        intro c hcn
        have hcells := hE c (List.mem_filter.1 hcn).1
        simp [nuniqueV, dropNa, Col.numVals, hcells]
      have hfilter : (numericColsOf X).filter
          (fun c => popVar? c.numVals == some 0) = [] := by
        rw [List.filter_eq_nil_iff]
        intro c hcn
        have hcells := hE c (List.mem_filter.1 hcn).1
        simp [popVar?, mean?, dropNa, Col.numVals, hcells]
      rw [hb, hvalid, hfilter]
      rfl
  · intro s
    constructor <;> intro p hp
    · simp only [MissingValueImputer_fit] at hp
      rcases List.mem_map.1 hp with ⟨c, hcn, rfl⟩
      have hcells := hE c (List.mem_filter.1 hcn).1
      simp [Col.hasNa, hcells]
    · simp only [MissingValueImputer_fit] at hp
      rcases List.mem_map.1 hp with ⟨c, hcn, rfl⟩
      have hcells := hE c (List.mem_filter.1 hcn).1
      simp [Col.hasNa, hcells]
  · intro hobj tr mu
    unfold objToCatFitList
    have hfil : X.filter (fun c => c.dtype == Dtype.objD) = [] := by
      rw [List.filter_eq_nil_iff]
      intro c hc hbeq
      exact hobj c hc (by simpa using hbeq)
    rw [hfil]
    rfl
  · unfold floatToCatFitList
    rw [foldl_append_names]
    have hfil : (X.filter (fun c => c.dtype == Dtype.floatD)).filter
        floatEligibleB = [] := by
      rw [List.filter_eq_nil_iff]
      intro c hc
      have hcells := hE c (List.mem_filter.1 hc).1
      simp [floatEligibleB, dropNa, Col.numVals, hcells]
    rw [hfil]
    rfl

/-- Witness for C5's amended theorem at a concrete empty table with one
zero-row float column. -/
theorem fit_on_empty_table_tolerated_witness :
    (∀ c ∈ ([⟨"n", Dtype.floatD, []⟩] : Table), c.cells = []) ∧
    (∀ t : ℚ, highNAfitList t [⟨"n", Dtype.floatD, []⟩] = []) :=
  ⟨by decide,
    (fit_on_empty_table_tolerated [⟨"n", Dtype.floatD, []⟩] (by decide)).1⟩

end AlzPrep

namespace AlzPrep

/-! ## Heap model for the no-mutation guarantee (C10)

Python frames are heap objects; a store of frames makes in-place
mutation expressible.  Only DataFrame-valued objects are tracked: every
pandas call the source makes (`copy`, `drop`, `fillna`, `astype`,
`corr`, `select_dtypes`, boolean masks) returns a fresh object — no
`inplace=True` occurs anywhere — and the only heap writes are the
`X_copy[col] = ...` column assignments, which hit the fresh copy's ref. -/

abbrev Store := List Table

/-- Dereference a frame (out-of-range reads never occur in the model). -/
def readRef (s : Store) (r : Nat) : Table :=
  s.getD r []

/-- Allocate a fresh frame, returning its ref. -/
def allocT (s : Store) (t : Table) : Store × Nat :=
  (s ++ [t], s.length)

/-- Overwrite the frame at a ref (`X_copy[col] = ...`). -/
def writeRef (s : Store) (r : Nat) (t : Table) : Store :=
  s.set r t

/-- Heap behaviour of `analyze_feature_correlations`: line 44 copies the
input frame, `df.corr(numeric_only=True)` (the external call, stood for
by `corr`) builds a fresh matrix, everything else reads. -/
def analyze_feature_correlationsS (corr : Table → CorrMatrix)
    (thresholds : Option ThTable) (store : Store) (x : Nat) :
    Store × Report :=
  let (s1, xc) := allocT store (readRef store x)
  (s1, analyze_feature_correlations (corr (readRef s1 xc)) thresholds)

/-- Heap behaviour of `DropColumnsHighNA.fit` (lines 27–63): reads only;
the missing-percentage series is not a frame. -/
def DropColumnsHighNA_fitS (s : HighNAState) (store : Store) (x : Nat) :
    Store × HighNAState :=
  (store, DropColumnsHighNA_fit s (readRef store x))

/-- Heap behaviour of `DropColumnsHighNA.transform` (lines 65–103):
`X_copy = X.copy()` allocates; `X_copy = X_copy.drop(...)` rebinds the
local to a further fresh frame (`drop` without `inplace` returns a new
object); the input ref is never written. -/
def DropColumnsHighNA_transformS (s : HighNAState) (store : Store)
    (x : Nat) : Except Err (Store × Nat) :=
  match s.columns_to_drop_ with
  | none => .error Err.runtimeError
  | some cols =>
      let (s1, xc) := allocT store (readRef store x)
      let colsNow := cols.filter
        (fun col => (readRef s1 xc).colNames.contains col)
      if colsNow.isEmpty then .ok (s1, xc)
      else
        let (s2, xc2) := allocT s1 (dropColumns (readRef s1 xc) colsNow)
        .ok (s2, xc2)

/-- A scaled column's cells (missing preserved). -/
def scaledCells (c : Col) : List Cell :=
  (minmaxScale c.numVals).map
    (fun o => match o with | some q => Cell.num q | none => Cell.na)

/-- The temporarily scaled frame built by `IdentifyAndDropLowVarNum.fit`
(line 113). -/
def scaledFrame (X : Table) : Table :=
  (validForScaling X).map (fun c => { c with cells := scaledCells c })

/-- Heap behaviour of `IdentifyAndDropLowVarNum.fit` (lines 47–181):
allocates `X_numeric_fit` (line 76) and the scaled frame (line 113),
otherwise reads. -/
def IdentifyAndDropLowVarNum_fitS (s : LowVarState) (store : Store)
    (x : Nat) : Store × LowVarState :=
  let X := readRef store x
  let (s1, _) := allocT store (numericColsOf X)
  let (s2, _) := allocT s1 (scaledFrame X)
  (s2, IdentifyAndDropLowVarNum_fit s X)

/-- Heap behaviour of `IdentifyAndDropLowVarNum.transform`
(lines 183–219): same copy/drop pattern as the high-NA dropper. -/
def IdentifyAndDropLowVarNum_transformS (s : LowVarState) (store : Store)
    (x : Nat) : Except Err (Store × Nat) :=
  match s.columns_to_drop_ with
  | none => .error Err.runtimeError
  | some cols =>
      let (s1, xc) := allocT store (readRef store x)
      let colsNow := cols.filter
        (fun col => (readRef s1 xc).colNames.contains col)
      if colsNow.isEmpty then .ok (s1, xc)
      else
        let (s2, xc2) := allocT s1 (dropColumns (readRef s1 xc) colsNow)
        .ok (s2, xc2)

/-- Heap behaviour of `MissingValueImputer.fit` (line 51 copies, then
reads). -/
def MissingValueImputer_fitS (s : ImputerState) (store : Store) (x : Nat) :
    Store × ImputerState :=
  let (s1, xc) := allocT store (readRef store x)
  (s1, MissingValueImputer_fit s (readRef s1 xc))

/-- Heap behaviour of `MissingValueImputer.transform` (line 119 copies;
each loop iteration writes `X_transformed[col] = ...fillna(...)` at the
copy's ref). -/
def MissingValueImputer_transformS (s : ImputerState) (store : Store)
    (x : Nat) : Except Err (Store × Nat) :=
  if s.num_imputers_.isEmpty && s.cat_imputers_.isEmpty
      && (!(s.numerical_cols_.getD []).isEmpty
          || !s.categorical_cols_.isEmpty)
      && s.numerical_cols_.isNone then
    .error Err.runtimeError
  else
    let (s1, j) := allocT store (readRef store x)
    let s2 := (s.numerical_cols_.getD []).foldl
      (fun st col => writeRef st j (imputeNumStep s (readRef st j) col)) s1
    let s3 := s.categorical_cols_.foldl
      (fun st col => writeRef st j (imputeCatStep s (readRef st j) col)) s2
    .ok (s3, j)

/-- Shared heap behaviour of the four converters' `transform`: copy, then
write the `astype` reassignment at the copy's ref per learned column. -/
def astypeFoldS (learned : List String) (store : Store) (x : Nat) :
    Store × Nat :=
  let (s1, j) := allocT store (readRef store x)
  let s2 := learned.foldl
    (fun st col => writeRef st j (astypeCategory (readRef st j) col)) s1
  (s2, j)

/-- Heap behaviour of `SpecificColumnCategorizer.fit`: reads only. -/
def SpecificColumnCategorizer_fitS (s : SpecificCatState) (store : Store)
    (x : Nat) : Store × SpecificCatState :=
  (store, SpecificColumnCategorizer_fit s (readRef store x))

/-- Heap behaviour of `SpecificColumnCategorizer.transform`. -/
def SpecificColumnCategorizer_transformS (s : SpecificCatState)
    (store : Store) (x : Nat) : Store × Nat :=
  astypeFoldS s.fitted_columns_ store x

/-- Heap behaviour of `ObjectToCategoryTransformer.fit`: reads only. -/
def ObjectToCategoryTransformer_fitS (s : ObjToCatState) (store : Store)
    (x : Nat) : Except Err (Store × ObjToCatState) :=
  (ObjectToCategoryTransformer_fit s (readRef store x)).map
    (fun st => (store, st))

/-- Heap behaviour of `ObjectToCategoryTransformer.transform`. -/
def ObjectToCategoryTransformer_transformS (s : ObjToCatState)
    (store : Store) (x : Nat) : Store × Nat :=
  astypeFoldS s.object_cols_to_convert_ store x

/-- Heap behaviour of `FloatToCategoryTransformer.fit`: reads only. -/
def FloatToCategoryTransformer_fitS (s : FloatToCatState) (store : Store)
    (x : Nat) : Store × FloatToCatState :=
  (store, FloatToCategoryTransformer_fit s (readRef store x))

/-- Heap behaviour of `FloatToCategoryTransformer.transform`. -/
def FloatToCategoryTransformer_transformS (s : FloatToCatState)
    (store : Store) (x : Nat) : Store × Nat :=
  astypeFoldS s.float_cols_to_convert_ store x

/-- Heap behaviour of `BooleanToCategoryTransformer.fit`: reads only. -/
def BooleanToCategoryTransformer_fitS (s : BoolToCatState) (store : Store)
    (x : Nat) : Store × BoolToCatState :=
  (store, BooleanToCategoryTransformer_fit s (readRef store x))

/-- Heap behaviour of `BooleanToCategoryTransformer.transform`. -/
def BooleanToCategoryTransformer_transformS (s : BoolToCatState)
    (store : Store) (x : Nat) : Store × Nat :=
  astypeFoldS s.bool_cols_to_convert_ store x

/-- Heap behaviour of `ColumnDropper.fit`: reads only. -/
def ColumnDropper_fitS (s : ColumnDropperState) (store : Store) (x : Nat) :
    Except Err (Store × ColumnDropperState) :=
  (ColumnDropper_fit s (readRef store x)).map (fun st => (store, st))

/-- Heap behaviour of `ColumnDropper.transform` (lines 64–117): the
early `return X.copy()` (line 86) allocates, as do `X.copy()` (line 92)
and the rebinding `X_copy = X_copy.drop(...)` (line 108). -/
def ColumnDropper_transformS (s : ColumnDropperState) (store : Store)
    (x : Nat) : Except Err (Store × Nat) :=
  if s.fitted_columns_to_drop.isEmpty then
    if s.columns_to_drop.isEmpty then .ok (allocT store (readRef store x))
    else .error Err.runtimeError
  else
    let (s1, xc) := allocT store (readRef store x)
    let colsNow := s.fitted_columns_to_drop.filter
      (fun col => (readRef s1 xc).colNames.contains col)
    if colsNow.isEmpty then .ok (s1, xc)
    else
      let (s2, xc2) := allocT s1 (dropColumns (readRef s1 xc) colsNow)
      .ok (s2, xc2)

theorem getElem?_foldl_writeRef {α : Type} (L : List α)
    (g : Store → α → Table) (j i : Nat) (hij : i ≠ j) (s : Store) :
    (L.foldl (fun st a => writeRef st j (g st a)) s)[i]? = s[i]? := by
  induction L generalizing s with
  | nil => rfl
  | cons a L ih =>
    rw [List.foldl_cons, ih]
    show (s.set j (g s a))[i]? = s[i]?
    exact List.getElem?_set_ne (Ne.symm hij)

end AlzPrep

namespace AlzPrep

theorem astypeFoldS_frame (learned : List String) (store : Store)
    (x i : Nat) (hi : i < store.length) :
    (astypeFoldS learned store x).1[i]? = store[i]? := by
  have hij : i ≠ store.length := Nat.ne_of_lt hi
  show (learned.foldl _ (store ++ [readRef store x]))[i]? = store[i]?
  rw [getElem?_foldl_writeRef _ _ store.length i hij]
  exact List.getElem?_append_left hi

/-- C10: no core operation mutates the input frame.  In the heap model
every operation only allocates fresh frames and writes at the fresh
copy's ref, so after any fit/transform of any step — and after the
correlation categorizer — every pre-existing store cell (the input table
in particular) holds exactly the frame it held before the call. -/
theorem core_operations_never_mutate_input (store : Store) (x i : Nat)
    (hi : i < store.length) :
    (∀ (corr : Table → CorrMatrix) (th : Option ThTable),
      (analyze_feature_correlationsS corr th store x).1[i]? = store[i]?) ∧
    (∀ s : HighNAState,
      (DropColumnsHighNA_fitS s store x).1[i]? = store[i]?) ∧
    (∀ (s : HighNAState) r, DropColumnsHighNA_transformS s store x = .ok r →
      r.1[i]? = store[i]?) ∧
    (∀ s : LowVarState,
      (IdentifyAndDropLowVarNum_fitS s store x).1[i]? = store[i]?) ∧
    (∀ (s : LowVarState) r,
      IdentifyAndDropLowVarNum_transformS s store x = .ok r →
      r.1[i]? = store[i]?) ∧
    (∀ s : ImputerState,
      (MissingValueImputer_fitS s store x).1[i]? = store[i]?) ∧
    (∀ (s : ImputerState) r,
      MissingValueImputer_transformS s store x = .ok r →
      r.1[i]? = store[i]?) ∧
    (∀ s : SpecificCatState,
      (SpecificColumnCategorizer_fitS s store x).1[i]? = store[i]?) ∧
    (∀ s : SpecificCatState,
      (SpecificColumnCategorizer_transformS s store x).1[i]? = store[i]?) ∧
    (∀ (s : ObjToCatState) r,
      ObjectToCategoryTransformer_fitS s store x = .ok r →
      r.1[i]? = store[i]?) ∧
    (∀ s : ObjToCatState,
      (ObjectToCategoryTransformer_transformS s store x).1[i]? = store[i]?) ∧
    (∀ s : FloatToCatState,
      (FloatToCategoryTransformer_fitS s store x).1[i]? = store[i]?) ∧
    (∀ s : FloatToCatState,
      (FloatToCategoryTransformer_transformS s store x).1[i]? = store[i]?) ∧
    (∀ s : BoolToCatState,
      (BooleanToCategoryTransformer_fitS s store x).1[i]? = store[i]?) ∧
    (∀ s : BoolToCatState,
      (BooleanToCategoryTransformer_transformS s store x).1[i]? = store[i]?) ∧
    (∀ (s : ColumnDropperState) r, ColumnDropper_fitS s store x = .ok r →
      r.1[i]? = store[i]?) ∧
    (∀ (s : ColumnDropperState) r,
      ColumnDropper_transformS s store x = .ok r →
      r.1[i]? = store[i]?) := by
  have hij : i ≠ store.length := Nat.ne_of_lt hi
  have halloc : ∀ t : Table, (store ++ [t])[i]? = store[i]? :=
    fun t => List.getElem?_append_left hi
  have hi2 : ∀ t : Table, i < (store ++ [t]).length := by
    intro t
    rw [List.length_append]
    omega
  have halloc2 : ∀ t t' : Table, (store ++ [t] ++ [t'])[i]? = store[i]? :=
    fun t t' => by rw [List.getElem?_append_left (hi2 t), halloc]
  refine ⟨?_, fun s => rfl, ?_, ?_, ?_, ?_, ?_, fun s => rfl,
    fun s => astypeFoldS_frame _ store x i hi, ?_,
    fun s => astypeFoldS_frame _ store x i hi, fun s => rfl,
    fun s => astypeFoldS_frame _ store x i hi, fun s => rfl,
    fun s => astypeFoldS_frame _ store x i hi, ?_, ?_⟩
  · intro corr th
    show (store ++ [readRef store x])[i]? = store[i]?
    exact halloc _
  · intro s r h
    cases hs : s.columns_to_drop_ with
    | none =>
      unfold DropColumnsHighNA_transformS at h
      rw [hs] at h
      cases h
    | some cols =>
      unfold DropColumnsHighNA_transformS at h
      rw [hs] at h
      simp only [allocT] at h
      split at h
      · cases h
        exact halloc _
      · cases h
        exact halloc2 _ _
  · intro s
    show (store ++ [numericColsOf (readRef store x)]
        ++ [scaledFrame (readRef store x)])[i]? = store[i]?
    exact halloc2 _ _
  · intro s r h
    cases hs : s.columns_to_drop_ with
    | none =>
      unfold IdentifyAndDropLowVarNum_transformS at h
      rw [hs] at h
      cases h
    | some cols =>
      unfold IdentifyAndDropLowVarNum_transformS at h
      rw [hs] at h
      simp only [allocT] at h
      split at h
      · cases h
        exact halloc _
      · cases h
        exact halloc2 _ _
  · intro s
    show (store ++ [readRef store x])[i]? = store[i]?
    exact halloc _
  · intro s r h
    unfold MissingValueImputer_transformS at h
    split at h
    · cases h
    · simp only [allocT] at h
      cases h
      rw [getElem?_foldl_writeRef _ _ store.length i hij,
        getElem?_foldl_writeRef _ _ store.length i hij]
      exact halloc _
  · intro s r h
    unfold ObjectToCategoryTransformer_fitS at h
    cases hf : ObjectToCategoryTransformer_fit s (readRef store x) with
    | error e =>
      rw [hf] at h
      cases h
    | ok st =>
      rw [hf] at h
      cases h
      rfl
  · intro s r h
    unfold ColumnDropper_fitS at h
    cases hf : ColumnDropper_fit s (readRef store x) with
    | error e =>
      rw [hf] at h
      cases h
    | ok st =>
      rw [hf] at h
      cases h
      rfl
  · intro s r h
    unfold ColumnDropper_transformS at h
    split at h
    · split at h
      · simp only [allocT] at h
        cases h
        exact halloc _
      · cases h
    · simp only [allocT] at h
      split at h
      · cases h
        exact halloc _
      · cases h
        exact halloc2 _ _

/-- Witness for C10 on a concrete one-frame store. -/
theorem core_operations_never_mutate_input_witness :
    0 < ([[]] : Store).length ∧
    (∀ s : HighNAState,
      (DropColumnsHighNA_fitS s [[]] 0).1[0]? = ([[]] : Store)[0]?) :=
  ⟨by decide, (core_operations_never_mutate_input [[]] 0 0 (by decide)).2.1⟩

end AlzPrep
